import Mathlib

/-!
Shallow embedding of the mesh-generation engine of
`src/probe_library/obj_generator.py` (class `ProbeOBJGenerator` and the
module-level entry point `generate_probe_obj`), together with theorems
settling the specification's claims about it.

Coordinates are modelled as rationals (the Python code uses floats; every
geometric computation in the engine is plain field arithmetic, except the
trigonometric calls in `_add_circular_contact`, which are abstracted as
function parameters `cosf`/`sinf` and a constant `pi`).
-/

/-- State of the `ProbeOBJGenerator` accumulator: the vertex list, the face
list (each face a list of 1-based vertex indices), and the running vertex
count (`self.vertex_count`). -/
structure ProbeOBJGenerator where
  vertices : List (ℚ × ℚ × ℚ)
  faces : List (List ℕ)
  vertex_count : ℕ
deriving Repr, DecidableEq

/-- `__init__` / a freshly constructed generator. -/
def ProbeOBJGenerator.empty : ProbeOBJGenerator := ⟨[], [], 0⟩

/-- `reset`: clears vertices and faces and the counter. -/
def ProbeOBJGenerator.reset (_g : ProbeOBJGenerator) : ProbeOBJGenerator :=
  ProbeOBJGenerator.empty

/-- `add_vertex`: appends a vertex and returns the updated state together
with the new vertex's 1-based index. -/
def ProbeOBJGenerator.add_vertex (g : ProbeOBJGenerator) (x y z : ℚ) :
    ProbeOBJGenerator × ℕ :=
  (⟨g.vertices ++ [(x, y, z)], g.faces, g.vertex_count + 1⟩, g.vertex_count + 1)

/-- `add_face`: appends a face given by its 1-based vertex indices. -/
def ProbeOBJGenerator.add_face (g : ProbeOBJGenerator) (vertex_indices : List ℕ) :
    ProbeOBJGenerator :=
  ⟨g.vertices, g.faces ++ [vertex_indices], g.vertex_count⟩

/-- `extrude_contour`: for each contour point in order, adds one bottom
vertex then one top vertex, returning the state and the two index lists. -/
def ProbeOBJGenerator.extrude_contour (g : ProbeOBJGenerator) :
    List (ℚ × ℚ) → ℚ → ℚ → ProbeOBJGenerator × List ℕ × List ℕ
  | [], _, _ => (g, [], [])
  | (x, y) :: rest, z_bottom, z_top =>
    let r1 := g.add_vertex x y z_bottom
    let r2 := r1.1.add_vertex x y z_top
    let r3 := r2.1.extrude_contour rest z_bottom z_top
    (r3.1, r1.2 :: r3.2.1, r2.2 :: r3.2.2)

/-- The quad side face for edge `i → (i+1) mod n` built by the side-face
loop of `create_faces_from_contour`. -/
def sideFace (bottom_indices top_indices : List ℕ) (i : ℕ) : List ℕ :=
  let n := bottom_indices.length
  [bottom_indices.getD i 0, bottom_indices.getD ((i + 1) % n) 0,
   top_indices.getD ((i + 1) % n) 0, top_indices.getD i 0]

/-- `create_faces_from_contour`: bottom cap (reversed) and top cap when the
contour has at least 3 points, then one quad side face per contour edge. -/
def ProbeOBJGenerator.create_faces_from_contour (g : ProbeOBJGenerator)
    (bottom_indices top_indices : List ℕ) : ProbeOBJGenerator :=
  let n := bottom_indices.length
  let g1 := if 3 ≤ n then g.add_face bottom_indices.reverse else g
  let g2 := if 3 ≤ n then g1.add_face top_indices else g1
  (List.range n).foldl
    (fun g i => g.add_face (sideFace bottom_indices top_indices i)) g2

-- Basic lemmas about the builder --

theorem add_face_vertices (g : ProbeOBJGenerator) (f : List ℕ) :
    (g.add_face f).vertices = g.vertices := rfl

theorem foldl_add_face (l : List α) (h : α → List ℕ) (g : ProbeOBJGenerator) :
    l.foldl (fun g a => g.add_face (h a)) g =
      ⟨g.vertices, g.faces ++ l.map h, g.vertex_count⟩ := by
  induction l generalizing g with
  | nil => simp [ProbeOBJGenerator.add_face]
  | cons a l ih =>
    rw [List.foldl_cons, ih]
    simp [ProbeOBJGenerator.add_face]

/-- Closed form of `extrude_contour`: it appends one (bottom, top) vertex
pair per contour point and returns consecutive odd/even offsets from the
initial vertex count. -/
theorem extrude_contour_eq (pts : List (ℚ × ℚ)) (zb zt : ℚ)
    (g : ProbeOBJGenerator) :
    g.extrude_contour pts zb zt =
      (⟨g.vertices ++ pts.flatMap (fun p => [(p.1, p.2, zb), (p.1, p.2, zt)]),
        g.faces, g.vertex_count + 2 * pts.length⟩,
       (List.range pts.length).map (fun k => g.vertex_count + 2 * k + 1),
       (List.range pts.length).map (fun k => g.vertex_count + 2 * k + 2)) := by
  induction pts generalizing g with
  | nil => simp [ProbeOBJGenerator.extrude_contour]
  | cons p rest ih =>
    obtain ⟨x, y⟩ := p
    simp only [ProbeOBJGenerator.extrude_contour, ProbeOBJGenerator.add_vertex, ih,
      Prod.mk.injEq, ProbeOBJGenerator.mk.injEq]
    refine ⟨⟨by simp, trivial, by simp only [List.length_cons]; omega⟩, ?_, ?_⟩ <;>
      · simp only [List.length_cons, List.range_succ_eq_map, List.map_cons,
          List.map_map, Function.comp_def, List.cons.injEq]
        refine ⟨?_, ?_⟩
        · trivial
        · apply List.map_congr_left
          intro k _
          omega

/-- Closed form of `create_faces_from_contour`: caps (when the contour has
at least 3 points) followed by the side-face quads, vertices untouched. -/
theorem create_faces_from_contour_eq (g : ProbeOBJGenerator) (bs ts : List ℕ) :
    g.create_faces_from_contour bs ts =
      ⟨g.vertices,
       g.faces ++ (if 3 ≤ bs.length then [bs.reverse, ts] else [])
         ++ (List.range bs.length).map (sideFace bs ts),
       g.vertex_count⟩ := by
  unfold ProbeOBJGenerator.create_faces_from_contour
  rw [foldl_add_face]
  by_cases h : 3 ≤ bs.length <;> simp [h, ProbeOBJGenerator.add_face]

/-- The extrusion pipeline used by the mesh generator for one contour: a
fresh builder, `extrude_contour`, then `create_faces_from_contour`. -/
def extrudeAndCap (pts : List (ℚ × ℚ)) (z_bottom z_top : ℚ) : ProbeOBJGenerator :=
  let r := ProbeOBJGenerator.empty.extrude_contour pts z_bottom z_top
  r.1.create_faces_from_contour r.2.1 r.2.2

/-- The bottom-vertex index of contour point `k` (0-based), on an initially
empty builder: vertices are inserted bottom-then-top per point. -/
def bottomIdx (k : ℕ) : ℕ := 2 * k + 1

/-- The top-vertex index of contour point `k` (0-based), on an initially
empty builder. -/
def topIdx (k : ℕ) : ℕ := 2 * k + 2

theorem getD_map_range (f : ℕ → ℕ) (n i : ℕ) (h : i < n) :
    ((List.range n).map f).getD i 0 = f i := by
  rw [List.getD_eq_getElem?_getD]
  simp [List.getElem?_range, h]

theorem flatMap_pair_length (pts : List (ℚ × ℚ)) (zb zt : ℚ) :
    (pts.flatMap (fun p => [(p.1, p.2, zb), (p.1, p.2, zt)])).length
      = 2 * pts.length := by
  induction pts with
  | nil => rfl
  | cons p rest ih => simp only [List.flatMap_cons, List.length_append,
      List.length_cons, List.length_nil, ih]; omega

/-- Full closed form of `extrudeAndCap`. -/
theorem extrudeAndCap_eq (pts : List (ℚ × ℚ)) (zb zt : ℚ) :
    extrudeAndCap pts zb zt =
      ⟨pts.flatMap (fun p => [(p.1, p.2, zb), (p.1, p.2, zt)]),
       (if 3 ≤ pts.length
          then [((List.range pts.length).map bottomIdx).reverse,
                (List.range pts.length).map topIdx]
          else [])
         ++ (List.range pts.length).map
              (sideFace ((List.range pts.length).map bottomIdx)
                ((List.range pts.length).map topIdx)),
       2 * pts.length⟩ := by
  unfold extrudeAndCap
  rw [extrude_contour_eq, create_faces_from_contour_eq]
  have hb : (List.range pts.length).map
        (fun k => ProbeOBJGenerator.empty.vertex_count + 2 * k + 1) =
      (List.range pts.length).map bottomIdx :=
    List.map_congr_left (fun k _ => by simp [ProbeOBJGenerator.empty, bottomIdx])
  have ht : (List.range pts.length).map
        (fun k => ProbeOBJGenerator.empty.vertex_count + 2 * k + 2) =
      (List.range pts.length).map topIdx :=
    List.map_congr_left (fun k _ => by simp [ProbeOBJGenerator.empty, topIdx])
  rw [hb, ht]
  simp only [ProbeOBJGenerator.empty, List.nil_append, List.length_map,
    List.length_range, Nat.zero_add]

/-- The side faces of `extrudeAndCap` in terms of contour-point indices. -/
theorem sideFace_extrude (n i : ℕ) (h : i < n) :
    sideFace ((List.range n).map bottomIdx) ((List.range n).map topIdx) i =
      [bottomIdx i, bottomIdx ((i + 1) % n), topIdx ((i + 1) % n), topIdx i] := by
  have hmod : (i + 1) % n < n := Nat.mod_lt _ (by omega)
  simp only [sideFace, List.length_map, List.length_range]
  rw [getD_map_range _ _ _ h, getD_map_range _ _ _ hmod,
    getD_map_range _ _ _ hmod, getD_map_range _ _ _ h]


/-- Every index in a cap or side face of an `n`-point extrusion on a fresh
builder lies in `[1, 2n]`. -/
theorem mem_map_bottomIdx_bound (n i : ℕ)
    (hi : i ∈ (List.range n).map bottomIdx) : 1 ≤ i ∧ i ≤ 2 * n := by
  obtain ⟨k, hk, rfl⟩ := List.mem_map.1 hi
  rw [List.mem_range] at hk
  unfold bottomIdx
  omega

theorem mem_map_topIdx_bound (n i : ℕ)
    (hi : i ∈ (List.range n).map topIdx) : 1 ≤ i ∧ i ≤ 2 * n := by
  obtain ⟨k, hk, rfl⟩ := List.mem_map.1 hi
  rw [List.mem_range] at hk
  unfold topIdx
  omega

/-- C1: extruding a contour of N ≥ 3 points between z-planes zBottom < zTop
on a fresh builder inserts exactly 2N vertices, one bottom vertex then one
top vertex per contour point in contour order, produces exactly N + 2
faces, and every index of every face lies within [1, 2N]. -/
theorem claim_C1 (pts : List (ℚ × ℚ)) (zb zt : ℚ)
    (h3 : 3 ≤ pts.length) (_hz : zb < zt) :
    (extrudeAndCap pts zb zt).vertices =
        pts.flatMap (fun p => [(p.1, p.2, zb), (p.1, p.2, zt)]) ∧
      (extrudeAndCap pts zb zt).vertices.length = 2 * pts.length ∧
      (extrudeAndCap pts zb zt).faces.length = pts.length + 2 ∧
      ∀ f ∈ (extrudeAndCap pts zb zt).faces, ∀ i ∈ f,
        1 ≤ i ∧ i ≤ 2 * pts.length := by
  rw [extrudeAndCap_eq]
  refine ⟨rfl, flatMap_pair_length pts zb zt, ?_, ?_⟩
  · simp only [if_pos h3]
    simp
  · intro f hf i hi
    simp only [if_pos h3] at hf
    rcases List.mem_append.1 hf with hcap | hside
    · rcases List.mem_cons.1 hcap with rfl | hcap2
      · exact mem_map_bottomIdx_bound _ _ (List.mem_reverse.1 hi)
      · rcases List.mem_cons.1 hcap2 with rfl | habs
        · exact mem_map_topIdx_bound _ _ hi
        · simp at habs
    · obtain ⟨j, hj, rfl⟩ := List.mem_map.1 hside
      have hjn : j < pts.length := List.mem_range.1 hj
      have hmod : (j + 1) % pts.length < pts.length := Nat.mod_lt _ (by omega)
      rw [sideFace_extrude _ _ hjn] at hi
      simp only [List.mem_cons, List.not_mem_nil, or_false] at hi
      unfold bottomIdx topIdx at hi
      rcases hi with rfl | rfl | rfl | rfl <;> omega

/-- Closed witness for C1 at the spec's unit-square contour. -/
theorem claim_C1_witness :
    (extrudeAndCap [(0, 0), (0, 10), (10, 10), (10, 0)] (-10) 10).vertices.length
        = 2 * 4 ∧
      (extrudeAndCap [(0, 0), (0, 10), (10, 10), (10, 0)] (-10) 10).faces.length
        = 4 + 2 :=
  ⟨(claim_C1 [(0, 0), (0, 10), (10, 10), (10, 0)] (-10) 10 (by decide)
      (by norm_num)).2.1,
   (claim_C1 [(0, 0), (0, 10), (10, 10), (10, 0)] (-10) 10 (by decide)
      (by norm_num)).2.2.1⟩

/-- C2: the faces of an N ≥ 3 point extrusion come in this exact form and
order: bottom cap (bottom indices in reversed contour order), top cap
(top indices in forward contour order), then one quad per contour edge,
each exactly [bottom(i), bottom(i+1 mod N), top(i+1 mod N), top(i)]; and
the spec's unit-square scenario yields 8 vertices, 6 faces, and bottom cap
[7, 5, 3, 1], the reverse of the bottom indices [1, 3, 5, 7]. -/
theorem claim_C2 :
    (∀ (pts : List (ℚ × ℚ)) (zb zt : ℚ), 3 ≤ pts.length →
      (extrudeAndCap pts zb zt).faces =
        ((List.range pts.length).map bottomIdx).reverse ::
          (List.range pts.length).map topIdx ::
          (List.range pts.length).map (fun i =>
            [bottomIdx i, bottomIdx ((i + 1) % pts.length),
             topIdx ((i + 1) % pts.length), topIdx i])) ∧
      (extrudeAndCap [(0, 0), (0, 10), (10, 10), (10, 0)] (-10) 10).vertices.length
        = 8 ∧
      (extrudeAndCap [(0, 0), (0, 10), (10, 10), (10, 0)] (-10) 10).faces.length
        = 6 ∧
      (extrudeAndCap [(0, 0), (0, 10), (10, 10), (10, 0)] (-10) 10).faces.getD 0 []
        = [7, 5, 3, 1] ∧
      [7, 5, 3, 1] = List.reverse [1, 3, 5, 7] := by
  refine ⟨?_, by decide, by decide, by decide, by decide⟩
  intro pts zb zt h3
  rw [extrudeAndCap_eq]
  simp only [if_pos h3, List.cons_append, List.nil_append]
  refine congrArg _ (congrArg _ ?_)
  apply List.map_congr_left
  intro i hi
  exact sideFace_extrude _ _ (List.mem_range.1 hi)

/-- Closed witness for C2's universally quantified part at the unit-square
contour. -/
theorem claim_C2_witness :
    (extrudeAndCap [(0, 0), (0, 10), (10, 10), (10, 0)] (-10) 10).faces =
      ((List.range 4).map bottomIdx).reverse ::
        (List.range 4).map topIdx ::
        (List.range 4).map (fun i =>
          [bottomIdx i, bottomIdx ((i + 1) % 4),
           topIdx ((i + 1) % 4), topIdx i]) :=
  claim_C2.1 [(0, 0), (0, 10), (10, 10), (10, 0)] (-10) 10 (by decide)

/-- C3 as stated is false: the bottom cap's index list is not the reverse
of the top cap's index list — the caps reference disjoint vertex sets
(bottom vertices have odd indices, top vertices even ones). Concretely,
for the triangle contour [(0,0),(1,0),(0,1)] extruded between 0 and 1 the
bottom cap is [5,3,1] while the reversed top cap is [6,4,2]. -/
theorem claim_C3_counterexample :
    (extrudeAndCap [(0, 0), (1, 0), (0, 1)] 0 1).faces.getD 0 [] = [5, 3, 1] ∧
      (extrudeAndCap [(0, 0), (1, 0), (0, 1)] 0 1).faces.getD 1 [] = [2, 4, 6] ∧
      ¬ ((extrudeAndCap [(0, 0), (1, 0), (0, 1)] 0 1).faces.getD 0 [] =
          ((extrudeAndCap [(0, 0), (1, 0), (0, 1)] 0 1).faces.getD 1 []).reverse) := by
  decide

/-- C3 amended: the two caps traverse the same contour points in opposite
order, but through paired vertices — each top index is one greater than
its paired bottom index. Hence the bottom cap equals the reverse of the
top cap with every index decreased by one. -/
theorem claim_C3 (pts : List (ℚ × ℚ)) (zb zt : ℚ) (h3 : 3 ≤ pts.length) :
    (extrudeAndCap pts zb zt).faces.getD 0 [] =
      (((extrudeAndCap pts zb zt).faces.getD 1 []).map (fun i => i - 1)).reverse := by
  rw [extrudeAndCap_eq]
  simp only [if_pos h3, List.cons_append, List.nil_append, List.getD_cons_zero,
    List.getD_cons_succ, List.map_map]
  refine congrArg _ ?_
  apply List.map_congr_left
  intro k _
  simp [bottomIdx, topIdx, Function.comp_def]

/-- Closed witness for the amended C3 at a concrete triangle contour. -/
theorem claim_C3_witness :
    (extrudeAndCap [(0, 0), (1, 0), (0, 1)] 0 1).faces.getD 0 [] =
      (((extrudeAndCap [(0, 0), (1, 0), (0, 1)] 0 1).faces.getD 1 []).map
        (fun i => i - 1)).reverse :=
  claim_C3 [(0, 0), (1, 0), (0, 1)] 0 1 (by decide)

/-- C10: invoked directly on a degenerate contour of N points, 0 < N < 3,
the kernel still appends 2N vertices, emits no cap faces, and emits N
degenerate quad side faces: for N = 1 a single quad repeating the two
vertices, for N = 2 two quads over the same four vertices. -/
theorem claim_C10 (pts : List (ℚ × ℚ)) (zb zt : ℚ)
    (h0 : 0 < pts.length) (hlt : pts.length < 3) :
    (extrudeAndCap pts zb zt).vertices.length = 2 * pts.length ∧
      (extrudeAndCap pts zb zt).faces.length = pts.length ∧
      (extrudeAndCap pts zb zt).faces = (List.range pts.length).map (fun i =>
        [bottomIdx i, bottomIdx ((i + 1) % pts.length),
         topIdx ((i + 1) % pts.length), topIdx i]) ∧
      (pts.length = 1 → (extrudeAndCap pts zb zt).faces = [[1, 1, 2, 2]]) ∧
      (pts.length = 2 →
        (extrudeAndCap pts zb zt).faces = [[1, 3, 4, 2], [3, 1, 2, 4]]) := by
  have hif : ¬ 3 ≤ pts.length := by omega
  have hfaces : (extrudeAndCap pts zb zt).faces =
      (List.range pts.length).map (fun i =>
        [bottomIdx i, bottomIdx ((i + 1) % pts.length),
         topIdx ((i + 1) % pts.length), topIdx i]) := by
    rw [extrudeAndCap_eq]
    simp only [if_neg hif, List.nil_append]
    apply List.map_congr_left
    intro i hi
    exact sideFace_extrude _ _ (List.mem_range.1 hi)
  refine ⟨?_, ?_, hfaces, ?_, ?_⟩
  · rw [extrudeAndCap_eq]
    exact flatMap_pair_length pts zb zt
  · rw [hfaces]
    simp
  · intro h1
    rw [hfaces, h1]
    decide
  · intro h2
    rw [hfaces, h2]
    decide

/-- Closed witness for C10 at the one-point contour [(0,0)]. -/
theorem claim_C10_witness :
    (extrudeAndCap [(0, 0)] 0 1).faces = [[1, 1, 2, 2]] :=
  (claim_C10 [(0, 0)] 0 1 (by decide) (by decide)).2.2.2.1 rfl

/-- Shape-parameter dictionary as read by `add_contact_geometry`: the three
keys it looks up, each possibly missing (Python `dict.get` with default). -/
structure ShapeParams where
  radius : Option ℚ
  width : Option ℚ
  height : Option ℚ
deriving DecidableEq

/-- The probe attributes the generator reads. Contact positions are 2-D
points (the source's `ndim == 2` branch lifts them to z = 0; the probes of
this repository are planar). `contact_shapes` / `contact_shape_params` are
`Option` because the source reads them with `getattr` defaults. -/
structure Probe where
  probe_planar_contour : Option (List (ℚ × ℚ))
  contact_positions : List (ℚ × ℚ)
  contact_shapes : Option (List String)
  contact_shape_params : Option (List ShapeParams)
deriving DecidableEq

/-- The `np.column_stack([positions, np.zeros(...)])` lift of the 2-D
contact positions to 3-D with z = 0. -/
def Probe.positions_3d (p : Probe) : List (ℚ × ℚ × ℚ) :=
  p.contact_positions.map (fun q => (q.1, q.2, 0))

/-- `np.min(positions_3d, axis=0)` projected through `f`, as the reduction
of `min` over the list (first element as the accumulator seed). -/
def coordMin (f : ℚ × ℚ × ℚ → ℚ) (p : ℚ × ℚ × ℚ) (rest : List (ℚ × ℚ × ℚ)) : ℚ :=
  rest.foldl (fun m q => min m (f q)) (f p)

/-- `np.max(positions_3d, axis=0)` projected through `f`. -/
def coordMax (f : ℚ × ℚ × ℚ → ℚ) (p : ℚ × ℚ × ℚ) (rest : List (ℚ × ℚ × ℚ)) : ℚ :=
  rest.foldl (fun m q => max m (f q)) (f p)

/-- The fallback rectangle of `_generate_basic_probe_shape`: the bounding
box of the positions expanded by the 30-unit margin, corners in the order
[top-left, bottom-left, bottom-right, top-right]. -/
def basicContour (p : ℚ × ℚ × ℚ) (rest : List (ℚ × ℚ × ℚ)) : List (ℚ × ℚ) :=
  let margin : ℚ := 30
  let x_min := coordMin (fun q => q.1) p rest - margin
  let x_max := coordMax (fun q => q.1) p rest + margin
  let y_min := coordMin (fun q => q.2.1) p rest - margin
  let y_max := coordMax (fun q => q.2.1) p rest + margin
  [(x_min, y_max), (x_min, y_min), (x_max, y_min), (x_max, y_max)]

/-- `_generate_basic_probe_shape`. With no contact positions, `np.min` of
the empty array raises; the `except` catches it and the method returns
`False` with the builder untouched. Otherwise the margin-expanded
bounding-box rectangle is extruded. -/
def ProbeOBJGenerator._generate_basic_probe_shape (g : ProbeOBJGenerator)
    (probe : Probe) (probe_thickness _contact_height : ℚ) (_add_contacts : Bool) :
    ProbeOBJGenerator × Bool :=
  match probe.positions_3d with
  | [] => (g, false)
  | p :: rest =>
    let r := g.extrude_contour (basicContour p rest)
      (-probe_thickness / 2) (probe_thickness / 2)
    (r.1.create_faces_from_contour r.2.1 r.2.2, true)

/-- `generate_probe_mesh`: reset, then extrude the planar contour if it has
at least 3 points, else fall back to the basic shape. The `add_contacts`
flag is accepted but never used by the body (the source's docstring says
"ignored, always False"), so `add_contact_geometry` is never reached. -/
def ProbeOBJGenerator.generate_probe_mesh (g : ProbeOBJGenerator) (probe : Probe)
    (probe_thickness contact_height : ℚ) (_add_contacts : Bool) :
    ProbeOBJGenerator × Bool :=
  let g0 := g.reset
  match probe.probe_planar_contour with
  | none => g0._generate_basic_probe_shape probe probe_thickness contact_height false
  | some contour =>
    if contour.length < 3 then
      g0._generate_basic_probe_shape probe probe_thickness contact_height false
    else
      let r := g0.extrude_contour contour (-probe_thickness / 2) (probe_thickness / 2)
      (r.1.create_faces_from_contour r.2.1 r.2.2, true)

/-- The module-level `generate_probe_obj`: fresh generator, then
`generate_probe_mesh` with `add_contacts` forced to `False`. (The final
`save_obj` call is file I/O and is modelled separately; this returns the
generated mesh and the mesh-generation success flag.) -/
def generate_probe_obj (probe : Probe) (probe_thickness contact_height : ℚ)
    (_add_contacts : Bool) : ProbeOBJGenerator × Bool :=
  ProbeOBJGenerator.empty.generate_probe_mesh probe probe_thickness contact_height false

/-- The shank-only mesh: the planar-contour extrusion when the contour is
usable, else the fallback-rectangle extrusion, else failure. Defined
without any reference to contact geometry, `contact_height`,
`add_contacts`, or the incoming builder state. -/
def shankOnlyMesh (probe : Probe) (probe_thickness : ℚ) : ProbeOBJGenerator × Bool :=
  let fallback :=
    match probe.positions_3d with
    | [] => (ProbeOBJGenerator.empty, false)
    | p :: rest =>
      (extrudeAndCap (basicContour p rest) (-probe_thickness / 2) (probe_thickness / 2),
       true)
  match probe.probe_planar_contour with
  | none => fallback
  | some contour =>
    if 3 ≤ contour.length then
      (extrudeAndCap contour (-probe_thickness / 2) (probe_thickness / 2), true)
    else fallback

/-- Shared helper: `generate_probe_mesh` always computes the shank-only
mesh, whatever the incoming builder state, the `contact_height`, and the
`add_contacts` flag. -/
theorem generate_probe_mesh_eq_shank (g : ProbeOBJGenerator) (probe : Probe)
    (probe_thickness contact_height : ℚ) (add_contacts : Bool) :
    g.generate_probe_mesh probe probe_thickness contact_height add_contacts =
      shankOnlyMesh probe probe_thickness := by
  unfold ProbeOBJGenerator.generate_probe_mesh shankOnlyMesh
    ProbeOBJGenerator._generate_basic_probe_shape ProbeOBJGenerator.reset
  cases hc : probe.probe_planar_contour with
  | none =>
    cases hp : probe.positions_3d with
    | nil => rfl
    | cons p rest => rfl
  | some contour =>
    by_cases h3 : contour.length < 3
    · have h3' : ¬ 3 ≤ contour.length := by omega
      simp only [if_pos h3, if_neg h3']
      cases hp : probe.positions_3d with
      | nil => rfl
      | cons p rest => rfl
    · have h3' : 3 ≤ contour.length := by omega
      simp only [if_neg h3, if_pos h3']
      rfl

/-- C5: for every probe, both builder states, and both values of the
`add_contacts` flag, the public entry points `generate_probe_mesh` and
`generate_probe_obj` produce one and the same result — the shank-only
mesh. Per-contact geometry is never invoked through the public path, so
the output depends neither on `add_contacts` nor on `contact_height`. -/
theorem claim_C5 (probe : Probe) (probe_thickness contact_height : ℚ)
    (add_contacts : Bool) (g : ProbeOBJGenerator) :
    g.generate_probe_mesh probe probe_thickness contact_height add_contacts =
        shankOnlyMesh probe probe_thickness ∧
      generate_probe_obj probe probe_thickness contact_height add_contacts =
        shankOnlyMesh probe probe_thickness :=
  ⟨generate_probe_mesh_eq_shank g probe probe_thickness contact_height add_contacts,
   generate_probe_mesh_eq_shank ProbeOBJGenerator.empty probe probe_thickness
     contact_height false⟩

/-- C6: when the contour is absent or has fewer than 3 points and at least
one contact position exists, the generator extrudes a 4-point rectangle
whose corners are the bounding box of the contact x/y coordinates expanded
by exactly 30 units on all sides, ordered [top-left, bottom-left,
bottom-right, top-right]; for the single position (0,0) with thickness 20
the corners are (-30,30), (-30,-30), (30,-30), (30,30) and the mesh has 8
vertices and 6 faces. -/
theorem claim_C6 :
    (∀ (probe : Probe) (th ch : ℚ) (ac : Bool) (g : ProbeOBJGenerator)
        (q : ℚ × ℚ) (qs : List (ℚ × ℚ)),
      (probe.probe_planar_contour = none ∨
        ∃ c, probe.probe_planar_contour = some c ∧ c.length < 3) →
      probe.contact_positions = q :: qs →
      g.generate_probe_mesh probe th ch ac =
        (extrudeAndCap
          [(qs.foldl (fun m r => min m r.1) q.1 - 30,
            qs.foldl (fun m r => max m r.2) q.2 + 30),
           (qs.foldl (fun m r => min m r.1) q.1 - 30,
            qs.foldl (fun m r => min m r.2) q.2 - 30),
           (qs.foldl (fun m r => max m r.1) q.1 + 30,
            qs.foldl (fun m r => min m r.2) q.2 - 30),
           (qs.foldl (fun m r => max m r.1) q.1 + 30,
            qs.foldl (fun m r => max m r.2) q.2 + 30)]
          (-th / 2) (th / 2), true)) ∧
      ProbeOBJGenerator.empty.generate_probe_mesh ⟨none, [(0, 0)], none, none⟩
          20 2 false =
        (extrudeAndCap [(-30, 30), (-30, -30), (30, -30), (30, 30)] (-10) 10,
         true) ∧
      (ProbeOBJGenerator.empty.generate_probe_mesh ⟨none, [(0, 0)], none, none⟩
          20 2 false).1.vertices.length = 8 ∧
      (ProbeOBJGenerator.empty.generate_probe_mesh ⟨none, [(0, 0)], none, none⟩
          20 2 false).1.faces.length = 6 := by
  have hscen : ProbeOBJGenerator.empty.generate_probe_mesh
      ⟨none, [(0, 0)], none, none⟩ 20 2 false =
      (extrudeAndCap [(-30, 30), (-30, -30), (30, -30), (30, 30)] (-10) 10,
       true) := by
    rw [generate_probe_mesh_eq_shank]
    unfold shankOnlyMesh
    dsimp only [Probe.positions_3d, List.map]
    norm_num [basicContour, coordMin, coordMax]
  refine ⟨?_, hscen, ?_, ?_⟩
  · intro probe th ch ac g q qs hc hpos
    rw [generate_probe_mesh_eq_shank]
    have hlift : probe.positions_3d = (q.1, q.2, 0) :: qs.map (fun r => (r.1, r.2, 0)) := by
      simp [Probe.positions_3d, hpos]
    have hbasic : basicContour (q.1, q.2, 0) (qs.map (fun r => (r.1, r.2, 0))) =
        [(qs.foldl (fun m r => min m r.1) q.1 - 30,
          qs.foldl (fun m r => max m r.2) q.2 + 30),
         (qs.foldl (fun m r => min m r.1) q.1 - 30,
          qs.foldl (fun m r => min m r.2) q.2 - 30),
         (qs.foldl (fun m r => max m r.1) q.1 + 30,
          qs.foldl (fun m r => min m r.2) q.2 - 30),
         (qs.foldl (fun m r => max m r.1) q.1 + 30,
          qs.foldl (fun m r => max m r.2) q.2 + 30)] := by
      simp [basicContour, coordMin, coordMax, List.foldl_map]
    rcases hc with hc | ⟨c, hc, hclen⟩
    · unfold shankOnlyMesh
      rw [hc, hlift]
      dsimp only
      rw [hbasic]
    · have hclen' : ¬ 3 ≤ c.length := by omega
      unfold shankOnlyMesh
      rw [hc, hlift]
      dsimp only
      rw [if_neg hclen', hbasic]
  · rw [hscen, extrudeAndCap_eq]
    dsimp only
    rw [flatMap_pair_length]
    rfl
  · rw [hscen, extrudeAndCap_eq]
    norm_num

/-- Closed witness for C6's universally quantified part at the spec's
scenario probe. -/
theorem claim_C6_witness :
    ProbeOBJGenerator.empty.generate_probe_mesh ⟨none, [(0, 0)], none, none⟩
        20 2 false =
      (extrudeAndCap
        [(([] : List (ℚ × ℚ)).foldl (fun m r => min m r.1) 0 - 30,
          ([] : List (ℚ × ℚ)).foldl (fun m r => max m r.2) 0 + 30),
         (([] : List (ℚ × ℚ)).foldl (fun m r => min m r.1) 0 - 30,
          ([] : List (ℚ × ℚ)).foldl (fun m r => min m r.2) 0 - 30),
         (([] : List (ℚ × ℚ)).foldl (fun m r => max m r.1) 0 + 30,
          ([] : List (ℚ × ℚ)).foldl (fun m r => min m r.2) 0 - 30),
         (([] : List (ℚ × ℚ)).foldl (fun m r => max m r.1) 0 + 30,
          ([] : List (ℚ × ℚ)).foldl (fun m r => max m r.2) 0 + 30)]
        (-20 / 2) (20 / 2), true) :=
  claim_C6.1 ⟨none, [(0, 0)], none, none⟩ 20 2 false ProbeOBJGenerator.empty
    (0, 0) [] (Or.inl rfl) rfl

/-- The per-probe batch loop of `probe_generator.py`: each probe is handled
by its own `generate_probe_obj` call inside its own try/except, so probes
are processed independently; modelled as a map. -/
def processProbes (probes : List Probe) (th ch : ℚ) :
    List (ProbeOBJGenerator × Bool) :=
  probes.map (fun p => generate_probe_obj p th ch false)

/-- C7: a probe with neither a usable contour nor any contact positions
makes `generate_probe_mesh` return a failed result (`False`) with an empty
mesh, without raising, and its presence in a batch leaves every other
probe's result unchanged. -/
theorem claim_C7 (probe : Probe) (th ch : ℚ) (ac : Bool) (g : ProbeOBJGenerator)
    (hc : probe.probe_planar_contour = none ∨
      ∃ c, probe.probe_planar_contour = some c ∧ c.length < 3)
    (hp : probe.contact_positions = []) :
    (g.generate_probe_mesh probe th ch ac).2 = false ∧
      (g.generate_probe_mesh probe th ch ac).1 = ProbeOBJGenerator.empty ∧
      ∀ pre post : List Probe,
        processProbes (pre ++ probe :: post) th ch =
          processProbes pre th ch ++
            (ProbeOBJGenerator.empty, false) :: processProbes post th ch := by
  have hlift : probe.positions_3d = [] := by simp [Probe.positions_3d, hp]
  have hshank : shankOnlyMesh probe th = (ProbeOBJGenerator.empty, false) := by
    unfold shankOnlyMesh
    rcases hc with hc | ⟨c, hc, hclen⟩
    · rw [hc, hlift]
    · have hclen' : ¬ 3 ≤ c.length := by omega
      rw [hc, hlift]
      simp only [if_neg hclen']
  refine ⟨?_, ?_, ?_⟩
  · rw [generate_probe_mesh_eq_shank, hshank]
  · rw [generate_probe_mesh_eq_shank, hshank]
  · intro pre post
    unfold processProbes
    rw [List.map_append, List.map_cons]
    have : generate_probe_obj probe th ch false = (ProbeOBJGenerator.empty, false) := by
      unfold generate_probe_obj
      rw [generate_probe_mesh_eq_shank, hshank]
    rw [this]

/-- Closed witness for C7 at a probe with no contour and no contacts. -/
theorem claim_C7_witness :
    (ProbeOBJGenerator.empty.generate_probe_mesh ⟨none, [], none, none⟩
        20 2 false).2 = false :=
  (claim_C7 ⟨none, [], none, none⟩ 20 2 false ProbeOBJGenerator.empty
    (Or.inl rfl) rfl).1

/-- `np.linspace(start, stop, num, endpoint=False)`: `num` samples starting
at `start` with constant step `(stop - start) / num`, the endpoint
excluded. -/
def linspace (start stop : ℚ) (num : ℕ) : List ℚ :=
  (List.range num).map
    (fun (k : ℕ) => start + (k : ℚ) * ((stop - start) / (num : ℚ)))

/-- `_add_circular_contact`: sample `n_segments` angles over `[0, 2*pi)`,
place the circle points at radius around the center, and extrude them
between `z - height/2` and `z + height/2`. The source's per-angle
add-vertex loop is the same bottom-then-top pair loop as
`extrude_contour`, applied to the computed circle points; `cosf`, `sinf`
and `pi` abstract numpy's floating-point `cos`, `sin` and `π`. -/
def ProbeOBJGenerator._add_circular_contact (g : ProbeOBJGenerator)
    (cosf sinf : ℚ → ℚ) (pi : ℚ) (position : ℚ × ℚ × ℚ)
    (radius height : ℚ) (n_segments : ℕ) : ProbeOBJGenerator :=
  let angles := linspace 0 (2 * pi) n_segments
  let circle_points := angles.map (fun angle =>
    (position.1 + radius * cosf angle, position.2.1 + radius * sinf angle))
  let r := g.extrude_contour circle_points
    (position.2.2 - height / 2) (position.2.2 + height / 2)
  r.1.create_faces_from_contour r.2.1 r.2.2

/-- `_add_rectangular_contact`: the four axis-aligned corners around the
center, extruded between `z - thickness/2` and `z + thickness/2`. The
source's per-corner add-vertex loop is the same pair loop as
`extrude_contour`. -/
def ProbeOBJGenerator._add_rectangular_contact (g : ProbeOBJGenerator)
    (position : ℚ × ℚ × ℚ) (width height thickness : ℚ) : ProbeOBJGenerator :=
  let corners : List (ℚ × ℚ) :=
    [(position.1 - width / 2, position.2.1 - height / 2),
     (position.1 + width / 2, position.2.1 - height / 2),
     (position.1 + width / 2, position.2.1 + height / 2),
     (position.1 - width / 2, position.2.1 + height / 2)]
  let r := g.extrude_contour corners
    (position.2.2 - thickness / 2) (position.2.2 + thickness / 2)
  r.1.create_faces_from_contour r.2.1 r.2.2

/-- The default shape-parameter dictionary used when
`contact_shape_params` is missing or too short. -/
def defaultShapeParams : ShapeParams := ⟨some 10, none, none⟩

/-- The per-contact body of `add_contact_geometry`'s loop: dispatch on the
shape tag. Tags other than circle/square/rect fall through both branches
and add nothing. -/
def contactStep (cosf sinf : ℚ → ℚ) (pi : ℚ) (contact_height : ℚ)
    (shapes : List String) (params : List ShapeParams)
    (g : ProbeOBJGenerator) (ipos : ℕ × (ℚ × ℚ × ℚ)) : ProbeOBJGenerator :=
  let shape := shapes.getD ipos.1 "circle"
  let p := params.getD ipos.1 defaultShapeParams
  if shape = "circle" then
    g._add_circular_contact cosf sinf pi ipos.2 (p.radius.getD 10) contact_height 8
  else if shape = "square" ∨ shape = "rect" then
    let width := p.width.getD 20
    let height := p.height.getD width
    g._add_rectangular_contact ipos.2 width height contact_height
  else g

/-- `add_contact_geometry`: iterate over the 3-D-lifted contact positions,
resolving each contact's shape tag and parameters with `"circle"` /
`{radius: 10}` defaults (both for missing attributes and for too-short
lists), and add the matching contact geometry. -/
def ProbeOBJGenerator.add_contact_geometry (g : ProbeOBJGenerator)
    (cosf sinf : ℚ → ℚ) (pi : ℚ) (probe : Probe) (contact_height : ℚ) :
    ProbeOBJGenerator :=
  let positions := probe.contact_positions
  let contact_shapes :=
    probe.contact_shapes.getD (List.replicate positions.length "circle")
  let shape_params :=
    probe.contact_shape_params.getD
      (List.replicate positions.length defaultShapeParams)
  probe.positions_3d.enum.foldl
    (contactStep cosf sinf pi contact_height contact_shapes shape_params) g

theorem foldl_fixed (l : List α) (f : β → α → β) (b : β)
    (h : ∀ b' a, a ∈ l → f b' a = b') : l.foldl f b = b := by
  induction l generalizing b with
  | nil => rfl
  | cons a l ih =>
    rw [List.foldl_cons, h b a (List.mem_cons_self a l)]
    exact ih b (fun b' a' ha' => h b' a' (List.mem_cons_of_mem a ha'))

/-- C4 as stated is false: a contact whose shape tag is unrecognized is
silently skipped by `add_contact_geometry` — neither circular (16 new
vertices) nor rectangular geometry is added for it. Concretely, a
single contact tagged "hexagon" leaves the builder completely unchanged. -/
theorem claim_C4_counterexample :
    ProbeOBJGenerator.empty.add_contact_geometry (fun _ => 1) (fun _ => 0) 3
        ⟨none, [(0, 0)], some ["hexagon"], some [⟨none, none, none⟩]⟩ 2 =
      ProbeOBJGenerator.empty ∧
    (ProbeOBJGenerator.empty.add_contact_geometry (fun _ => 1) (fun _ => 0) 3
        ⟨none, [(0, 0)], some ["hexagon"], some [⟨none, none, none⟩]⟩ 2).vertices.length
      ≠ 16 := by
  decide

/-- C4 amended: a contact whose shape tag is not one of circle, square or
rect is skipped — no geometry of any kind is added for it. A probe all of
whose (sufficiently many) shape tags are unrecognized leaves the builder
unchanged. -/
theorem claim_C4 (g : ProbeOBJGenerator) (cosf sinf : ℚ → ℚ) (pi : ℚ)
    (probe : Probe) (contact_height : ℚ) (shapes : List String)
    (hs : probe.contact_shapes = some shapes)
    (hall : ∀ s ∈ shapes, s ≠ "circle" ∧ s ≠ "square" ∧ s ≠ "rect")
    (hlen : probe.contact_positions.length ≤ shapes.length) :
    g.add_contact_geometry cosf sinf pi probe contact_height = g := by
  unfold ProbeOBJGenerator.add_contact_geometry
  rw [hs]
  apply foldl_fixed
  intro g' ipos hmem
  have hlt : ipos.1 < probe.positions_3d.length := by
    have := List.mem_enum_iff_getElem?.1 hmem
    exact (List.getElem?_eq_some.1 this).1
  have hlt' : ipos.1 < shapes.length := by
    have : probe.positions_3d.length = probe.contact_positions.length := by
      simp [Probe.positions_3d]
    omega
  unfold contactStep
  have hshape : (Option.getD (some shapes)
      (List.replicate probe.contact_positions.length "circle")).getD ipos.1 "circle"
      = shapes[ipos.1] := by
    simp [List.getD_eq_getElem?_getD, List.getElem?_eq_getElem hlt']
  rw [hshape]
  obtain ⟨h1, h2, h3⟩ := hall shapes[ipos.1] (shapes.getElem_mem hlt')
  rw [if_neg h1, if_neg ?_]
  · intro hor
    rcases hor with h | h
    · exact h2 h
    · exact h3 h

/-- Closed witness for the amended C4 at a one-contact probe with tag
"hexagon". -/
theorem claim_C4_witness :
    ProbeOBJGenerator.empty.add_contact_geometry (fun _ => 2) (fun _ => 2) 3
        ⟨none, [(1, 1)], some ["hexagon"], some [⟨none, none, none⟩]⟩ 2 =
      ProbeOBJGenerator.empty :=
  claim_C4 ProbeOBJGenerator.empty (fun _ => 2) (fun _ => 2) 3
    ⟨none, [(1, 1)], some ["hexagon"], some [⟨none, none, none⟩]⟩ 2 ["hexagon"]
    rfl (by decide) (by decide)

theorem flatMap_map_list (l : List α) (f : α → β) (h : β → List γ) :
    (l.map f).flatMap h = l.flatMap (fun a => h (f a)) := by
  induction l with
  | nil => rfl
  | cons a l ih => simp only [List.map_cons, List.flatMap_cons, ih]

theorem length_flatMap_two (l : List α) (f h : α → β) :
    (l.flatMap (fun a => [f a, h a])).length = 2 * l.length := by
  induction l with
  | nil => rfl
  | cons a l ih => simp only [List.flatMap_cons, List.length_append,
      List.length_cons, List.length_nil, ih]; omega

/-- C9: circular contact generation samples exactly 8 angles, evenly
spaced over [0, 2*pi) with the endpoint excluded (the k-th angle is
k * (2*pi/8)), and extrudes the circle points between z - h/2 and z + h/2;
it always adds exactly 16 vertices (one bottom and one top per segment
point, in order) and 10 faces (bottom cap, top cap, 8 sides), regardless
of the radius. -/
theorem claim_C9 (g : ProbeOBJGenerator) (cosf sinf : ℚ → ℚ) (pi : ℚ)
    (pos : ℚ × ℚ × ℚ) (radius height : ℚ) (hpi : 0 < pi) :
    linspace 0 (2 * pi) 8 =
        (List.range 8).map (fun k : ℕ => (k : ℚ) * (2 * pi / 8)) ∧
      (∀ a ∈ linspace 0 (2 * pi) 8, 0 ≤ a ∧ a < 2 * pi) ∧
      (g._add_circular_contact cosf sinf pi pos radius height 8).vertices.length
        = g.vertices.length + 16 ∧
      (g._add_circular_contact cosf sinf pi pos radius height 8).faces.length
        = g.faces.length + 10 ∧
      (g._add_circular_contact cosf sinf pi pos radius height 8).vertices =
        g.vertices ++ (linspace 0 (2 * pi) 8).flatMap (fun angle =>
          [(pos.1 + radius * cosf angle, pos.2.1 + radius * sinf angle,
            pos.2.2 - height / 2),
           (pos.1 + radius * cosf angle, pos.2.1 + radius * sinf angle,
            pos.2.2 + height / 2)]) := by
  have hlen8 : (linspace 0 (2 * pi) 8).length = 8 := by simp [linspace]
  have hvert : (g._add_circular_contact cosf sinf pi pos radius height 8).vertices =
      g.vertices ++ (linspace 0 (2 * pi) 8).flatMap (fun angle =>
        [(pos.1 + radius * cosf angle, pos.2.1 + radius * sinf angle,
          pos.2.2 - height / 2),
         (pos.1 + radius * cosf angle, pos.2.1 + radius * sinf angle,
          pos.2.2 + height / 2)]) := by
    unfold ProbeOBJGenerator._add_circular_contact
    dsimp only
    rw [extrude_contour_eq, create_faces_from_contour_eq]
    dsimp only
    rw [flatMap_map_list]
  refine ⟨?_, ?_, ?_, ?_, hvert⟩
  · unfold linspace
    apply List.map_congr_left
    intro k _
    ring
  · intro a ha
    unfold linspace at ha
    obtain ⟨k, hk, rfl⟩ := List.mem_map.1 ha
    rw [List.mem_range] at hk
    have hk7 : (k : ℚ) ≤ 7 := by exact_mod_cast Nat.lt_succ_iff.mp hk
    have hknn : (0 : ℚ) ≤ (k : ℚ) := Nat.cast_nonneg k
    constructor
    · have hstep : (0 : ℚ) ≤ (2 * pi - 0) / ((8 : ℕ) : ℚ) := by
        apply div_nonneg
        · linarith
        · exact Nat.cast_nonneg 8
      have := mul_nonneg hknn hstep
      linarith
    · have hstep : (2 * pi - 0) / (8 : ℕ) = pi / 4 := by push_cast; ring
      rw [hstep]
      have hq : (0 : ℚ) < pi / 4 := by positivity
      have h1 : (k : ℚ) * (pi / 4) ≤ 7 * (pi / 4) :=
        mul_le_mul_of_nonneg_right hk7 (le_of_lt hq)
      linarith
  · rw [hvert, List.length_append,
      length_flatMap_two (linspace 0 (2 * pi) 8)
        (fun angle => (pos.1 + radius * cosf angle,
          pos.2.1 + radius * sinf angle, pos.2.2 - height / 2))
        (fun angle => (pos.1 + radius * cosf angle,
          pos.2.1 + radius * sinf angle, pos.2.2 + height / 2)),
      hlen8]
  · unfold ProbeOBJGenerator._add_circular_contact
    dsimp only
    rw [extrude_contour_eq, create_faces_from_contour_eq]
    dsimp only
    simp only [List.length_map, hlen8, List.length_append]
    norm_num

/-- Closed witness for C9 at the spec's scenario (radius 5, height 2,
center the origin), with pi instantiated at the rational 3. -/
theorem claim_C9_witness :
    (ProbeOBJGenerator.empty._add_circular_contact (fun _ => 1) (fun _ => 0) 3
        (0, 0, 0) 5 2 8).vertices.length
      = ProbeOBJGenerator.empty.vertices.length + 16 ∧
    (ProbeOBJGenerator.empty._add_circular_contact (fun _ => 1) (fun _ => 0) 3
        (0, 0, 0) 5 2 8).faces.length
      = ProbeOBJGenerator.empty.faces.length + 10 :=
  ⟨(claim_C9 ProbeOBJGenerator.empty (fun _ => 1) (fun _ => 0) 3 (0, 0, 0) 5 2
      (by norm_num)).2.2.1,
   (claim_C9 ProbeOBJGenerator.empty (fun _ => 1) (fun _ => 0) 3 (0, 0, 0) 5 2
      (by norm_num)).2.2.2.1⟩

-- Serialization (save_obj) and its round-trip (C8) --

/-- The decimal digit character for `d` (Python's `str`/format rendering
of one digit; values ≥ 9 clamp, unreached for real digits). -/
def digitChar (d : ℕ) : Char :=
  match d with
  | 0 => '0' | 1 => '1' | 2 => '2' | 3 => '3' | 4 => '4'
  | 5 => '5' | 6 => '6' | 7 => '7' | 8 => '8' | _ => '9'

/-- Inverse classification of a character as a decimal digit. -/
def charToDigit (c : Char) : Option ℕ :=
  if c = '0' then some 0 else if c = '1' then some 1
  else if c = '2' then some 2 else if c = '3' then some 3
  else if c = '4' then some 4 else if c = '5' then some 5
  else if c = '6' then some 6 else if c = '7' then some 7
  else if c = '8' then some 8 else if c = '9' then some 9
  else none

/-- Base-10 rendering of a natural number, most significant digit first
(Python's `str(n)` / the integer part of a fixed-point format). -/
def natToChars (n : ℕ) : List Char :=
  if _h : n < 10 then [digitChar n]
  else natToChars (n / 10) ++ [digitChar (n % 10)]
termination_by n
decreasing_by exact Nat.div_lt_self (by omega) (by norm_num)

/-- Accumulating decimal parser; fails on any non-digit character. -/
def parseNatAux (acc : ℕ) : List Char → Option ℕ
  | [] => some acc
  | c :: rest => (charToDigit c).bind (fun d => parseNatAux (acc * 10 + d) rest)

/-- Parse a nonempty all-digit character list as a natural number. -/
def parseNat (cs : List Char) : Option ℕ :=
  match cs with
  | [] => none
  | _ :: _ => parseNatAux 0 cs

theorem charToDigit_digitChar (d : ℕ) (h : d < 10) :
    charToDigit (digitChar d) = some d := by
  interval_cases d <;> rfl

theorem parseNatAux_append (a : ℕ) (xs ys : List Char) :
    parseNatAux a (xs ++ ys) =
      (parseNatAux a xs).bind (fun m => parseNatAux m ys) := by
  induction xs generalizing a with
  | nil => rfl
  | cons c rest ih =>
    rw [List.cons_append]
    simp only [parseNatAux]
    cases charToDigit c with
    | none => rfl
    | some d =>
      simp only [Option.some_bind]
      exact ih (a * 10 + d)

theorem parseNatAux_natToChars (a n : ℕ) :
    parseNatAux a (natToChars n) = some (a * 10 ^ (natToChars n).length + n) := by
  induction n using natToChars.induct with
  | case1 n h =>
    rw [natToChars, dif_pos h]
    unfold parseNatAux
    rw [charToDigit_digitChar n h]
    unfold parseNatAux
    simp
  | case2 n h ih =>
    rw [natToChars, dif_neg h]
    rw [parseNatAux_append, ih]
    simp only [Option.some_bind, parseNatAux,
      charToDigit_digitChar (n % 10) (Nat.mod_lt n (by omega)),
      Option.some.injEq, List.length_append, List.length_cons,
      List.length_nil]
    have hn : 10 * (n / 10) + n % 10 = n := Nat.div_add_mod n 10
    have expand : (a * 10 ^ (natToChars (n / 10)).length + n / 10) * 10 + n % 10
        = a * (10 ^ (natToChars (n / 10)).length * 10)
          + (10 * (n / 10) + n % 10) := by ring
    rw [expand, hn, ← pow_succ]

theorem natToChars_ne_nil (n : ℕ) : natToChars n ≠ [] := by
  rw [natToChars]
  by_cases h : n < 10
  · rw [dif_pos h]; simp
  · rw [dif_neg h]; simp

theorem parseNat_natToChars (n : ℕ) : parseNat (natToChars n) = some n := by
  have hne := natToChars_ne_nil n
  cases hcs : natToChars n with
  | nil => exact absurd hcs hne
  | cons c rest =>
    show parseNatAux 0 (c :: rest) = some n
    rw [← hcs, parseNatAux_natToChars]
    simp

/-- Zero-padded 6-digit rendering of the fractional part (`{:.6f}` always
prints exactly six fractional digits). -/
def natToCharsPad6 (m : ℕ) : List Char :=
  List.replicate (6 - (natToChars m).length) '0' ++ natToChars m

/-- The integer number of 10^-6 units printed by `{q:.6f}`: `q` scaled by
10^6 and rounded to the nearest integer (ties up; Python's float
formatting rounds the nearest-representable binary value, which agrees on
every value that is exact at 6 decimals). -/
def round6 (q : ℚ) : ℤ := ⌊q * 1000000 + 1 / 2⌋

/-- `q` truncated to the 6-decimal precision of the serialized text. -/
def prec6 (q : ℚ) : ℚ := (round6 q : ℚ) / 1000000

/-- The character sequence printed by `f"{q:.6f}"`: optional minus sign,
integer part, dot, exactly six fractional digits. -/
def format6 (q : ℚ) : List Char :=
  let n := round6 q
  (if n < 0 then ['-'] else []) ++
    natToChars (n.natAbs / 1000000) ++ '.' :: natToCharsPad6 (n.natAbs % 1000000)

/-- Split a character list on a separator character (the parsing side's
tokenizer; the spec's round-trip parse of the emitted text). -/
def splitOnChar (sep : Char) : List Char → List (List Char)
  | [] => [[]]
  | c :: rest =>
    match splitOnChar sep rest with
    | [] => [[]]
    | t :: ts => if c = sep then [] :: t :: ts else (c :: t) :: ts

/-- Join tokens with single spaces (`" ".join` on the serializer side). -/
def joinTokens : List (List Char) → List Char
  | [] => []
  | [t] => t
  | t :: ts => t ++ ' ' :: joinTokens ts

theorem splitOnChar_cons (sep c : Char) (rest : List Char) :
    splitOnChar sep (c :: rest) =
      match splitOnChar sep rest with
      | [] => [[]]
      | t :: ts => if c = sep then [] :: t :: ts else (c :: t) :: ts := rfl

theorem splitOnChar_ne_nil (sep : Char) (cs : List Char) :
    splitOnChar sep cs ≠ [] := by
  induction cs with
  | nil => simp [splitOnChar]
  | cons c rest ih =>
    rw [splitOnChar_cons]
    cases h : splitOnChar sep rest with
    | nil => simp
    | cons t ts =>
      by_cases hc : c = sep <;> simp [hc]

theorem splitOnChar_no_sep (sep : Char) (cs : List Char)
    (h : ∀ c ∈ cs, c ≠ sep) : splitOnChar sep cs = [cs] := by
  induction cs with
  | nil => rfl
  | cons c rest ih =>
    rw [splitOnChar_cons, ih (fun c' hc' => h c' (List.mem_cons_of_mem c hc'))]
    dsimp only
    rw [if_neg (h c (List.mem_cons_self c rest))]

theorem splitOnChar_append_sep (sep : Char) (xs ys : List Char)
    (h : ∀ c ∈ xs, c ≠ sep) :
    splitOnChar sep (xs ++ sep :: ys) = xs :: splitOnChar sep ys := by
  induction xs with
  | nil =>
    rw [List.nil_append, splitOnChar_cons]
    cases hys : splitOnChar sep ys with
    | nil => exact absurd hys (splitOnChar_ne_nil sep ys)
    | cons t ts =>
      dsimp only
      rw [if_pos rfl]
  | cons x xs ih =>
    rw [List.cons_append, splitOnChar_cons,
      ih (fun c' hc' => h c' (List.mem_cons_of_mem x hc'))]
    dsimp only
    rw [if_neg (h x (List.mem_cons_self x xs))]

theorem joinTokens_cons_cons (t t2 : List Char) (ts : List (List Char)) :
    joinTokens (t :: t2 :: ts) = t ++ ' ' :: joinTokens (t2 :: ts) := rfl

theorem splitOnChar_joinTokens (ts : List (List Char)) (hne : ts ≠ [])
    (h : ∀ t ∈ ts, ∀ c ∈ t, c ≠ ' ') :
    splitOnChar ' ' (joinTokens ts) = ts := by
  induction ts with
  | nil => exact absurd rfl hne
  | cons t rest ih =>
    cases rest with
    | nil =>
      show splitOnChar ' ' t = [t]
      exact splitOnChar_no_sep ' ' t (h t (List.mem_cons_self t []))
    | cons t2 ts2 =>
      rw [joinTokens_cons_cons,
        splitOnChar_append_sep ' ' t _ (h t (List.mem_cons_self t _)),
        ih (by simp) (fun t' ht' => h t' (List.mem_cons_of_mem t ht'))]

theorem charToDigit_digitChar_isSome (d : ℕ) :
    (charToDigit (digitChar d)).isSome := by
  unfold digitChar
  split <;> decide

theorem mem_natToChars_isSome (n : ℕ) :
    ∀ c ∈ natToChars n, (charToDigit c).isSome := by
  induction n using natToChars.induct with
  | case1 n h =>
    rw [natToChars, dif_pos h]
    intro c hc
    rw [List.mem_singleton] at hc
    rw [hc]
    exact charToDigit_digitChar_isSome n
  | case2 n h ih =>
    rw [natToChars, dif_neg h]
    intro c hc
    rcases List.mem_append.1 hc with hc | hc
    · exact ih c hc
    · rw [List.mem_singleton] at hc
      rw [hc]
      exact charToDigit_digitChar_isSome (n % 10)

theorem mem_natToCharsPad6_isSome (m : ℕ) :
    ∀ c ∈ natToCharsPad6 m, (charToDigit c).isSome := by
  intro c hc
  rcases List.mem_append.1 hc with hc | hc
  · rw [List.eq_of_mem_replicate hc]
    decide
  · exact mem_natToChars_isSome m c hc

theorem isSome_ne_dot (c : Char) (h : (charToDigit c).isSome) : c ≠ '.' := by
  rintro rfl
  exact absurd h (by decide)

theorem isSome_ne_space (c : Char) (h : (charToDigit c).isSome) : c ≠ ' ' := by
  rintro rfl
  exact absurd h (by decide)

theorem isSome_ne_minus (c : Char) (h : (charToDigit c).isSome) : c ≠ '-' := by
  rintro rfl
  exact absurd h (by decide)

theorem natToChars_length_le (k : ℕ) :
    ∀ n, n < 10 ^ (k + 1) → (natToChars n).length ≤ k + 1 := by
  induction k with
  | zero =>
    intro n h
    rw [natToChars, dif_pos (by omega : n < 10)]
    simp
  | succ k ih =>
    intro n h
    by_cases h10 : n < 10
    · rw [natToChars, dif_pos h10]
      simp
    · rw [natToChars, dif_neg h10, List.length_append]
      have hdiv : n / 10 < 10 ^ (k + 1) := by
        apply Nat.div_lt_of_lt_mul
        calc n < 10 ^ (k + 2) := h
        _ = 10 * 10 ^ (k + 1) := by ring
      have := ih (n / 10) hdiv
      simp only [List.length_cons, List.length_nil]
      omega

theorem natToCharsPad6_length (m : ℕ) (h : m < 1000000) :
    (natToCharsPad6 m).length = 6 := by
  have hle : (natToChars m).length ≤ 6 := natToChars_length_le 5 m (by norm_num at h ⊢; omega)
  unfold natToCharsPad6
  rw [List.length_append, List.length_replicate]
  omega

theorem parseNatAux_zeros (j : ℕ) :
    parseNatAux 0 (List.replicate j '0') = some 0 := by
  induction j with
  | zero => rfl
  | succ j ih =>
    rw [List.replicate_succ]
    show (charToDigit '0').bind (fun d => parseNatAux (0 * 10 + d) (List.replicate j '0')) = some 0
    have h0 : charToDigit '0' = some 0 := by decide
    rw [h0, Option.some_bind]
    simpa using ih

theorem parseNat_eq_aux (cs : List Char) (h : cs ≠ []) :
    parseNat cs = parseNatAux 0 cs := by
  cases cs with
  | nil => exact absurd rfl h
  | cons c rest => rfl

theorem parseNat_natToCharsPad6 (m : ℕ) :
    parseNat (natToCharsPad6 m) = some m := by
  unfold natToCharsPad6
  rw [parseNat_eq_aux _ (by simp [natToChars_ne_nil m]),
    parseNatAux_append]
  have hz := parseNatAux_zeros (6 - (natToChars m).length)
  rw [hz, Option.some_bind, parseNatAux_natToChars]
  simp

/-- Parse an unsigned fixed-point token "intpart.fracpart" into a rational
(the spec's round-trip parse; the source has no OBJ reader). -/
def parseUnsigned6 (cs : List Char) : Option ℚ :=
  match splitOnChar '.' cs with
  | [ip, fp] =>
    (parseNat ip).bind (fun (a : ℕ) => (parseNat fp).map (fun (b : ℕ) =>
      (a : ℚ) + (b : ℚ) / 10 ^ fp.length))
  | _ => none

/-- Parse a possibly negative fixed-point token. -/
def parse6 (cs : List Char) : Option ℚ :=
  if cs.head? = some '-' then (parseUnsigned6 cs.tail).map (fun q => -q)
  else parseUnsigned6 cs

theorem parseUnsigned6_format (m : ℕ) :
    parseUnsigned6 (natToChars (m / 1000000) ++ '.' ::
        natToCharsPad6 (m % 1000000)) =
      some ((m : ℚ) / 1000000) := by
  have hmod : m % 1000000 < 1000000 := Nat.mod_lt m (by norm_num)
  have hsplit : splitOnChar '.' (natToChars (m / 1000000) ++ '.' ::
      natToCharsPad6 (m % 1000000)) =
      [natToChars (m / 1000000), natToCharsPad6 (m % 1000000)] := by
    rw [splitOnChar_append_sep '.' _ _
      (fun c hc => isSome_ne_dot c (mem_natToChars_isSome _ c hc))]
    rw [splitOnChar_no_sep '.' _
      (fun c hc => isSome_ne_dot c (mem_natToCharsPad6_isSome _ c hc))]
  unfold parseUnsigned6
  rw [hsplit]
  dsimp only
  rw [parseNat_natToChars, parseNat_natToCharsPad6, Option.some_bind,
    Option.map_some', natToCharsPad6_length _ hmod]
  have hdm : 1000000 * (m / 1000000) + m % 1000000 = m :=
    Nat.div_add_mod m 1000000
  have hcast : ((m / 1000000 : ℕ) : ℚ) * 1000000 + ((m % 1000000 : ℕ) : ℚ)
      = (m : ℚ) := by
    exact_mod_cast congrArg (fun x : ℕ => (x : ℚ))
      (by omega : m / 1000000 * 1000000 + m % 1000000 = m)
  congr 1
  have h10 : ((10 : ℚ) ^ (6 : ℕ)) = 1000000 := by norm_num
  rw [h10]
  field_simp
  linarith

theorem natAbs_cast_div_eq (n : ℤ) (hn : ¬ n < 0) :
    ((n.natAbs : ℚ)) = (n : ℚ) := by
  rw [← Int.cast_natCast (R := ℚ), Int.natAbs_of_nonneg (not_lt.1 hn)]

theorem natAbs_cast_neg_eq (n : ℤ) (hn : n < 0) :
    ((n.natAbs : ℚ)) = -(n : ℚ) := by
  rw [← Int.cast_natCast (R := ℚ), Int.ofNat_natAbs_of_nonpos (le_of_lt hn),
    Int.cast_neg]

theorem parse6_neg_head (rest : List Char) :
    parse6 ('-' :: rest) = (parseUnsigned6 rest).map (fun q => -q) := by
  unfold parse6
  rw [if_pos]
  · rfl
  · rfl

theorem parse6_not_neg_head (c : Char) (rest : List Char) (h : c ≠ '-') :
    parse6 (c :: rest) = parseUnsigned6 (c :: rest) := by
  unfold parse6
  rw [if_neg (by simp [h])]

theorem parse6_format6 (q : ℚ) : parse6 (format6 q) = some (prec6 q) := by
  have key := parseUnsigned6_format ((round6 q).natAbs)
  by_cases hn : round6 q < 0
  · have hfmt : format6 q =
        '-' :: (natToChars ((round6 q).natAbs / 1000000) ++
          '.' :: natToCharsPad6 ((round6 q).natAbs % 1000000)) := by
      simp only [format6, if_pos hn, List.singleton_append, List.cons_append,
        List.nil_append]
    rw [hfmt, parse6_neg_head, key, Option.map_some']
    unfold prec6
    rw [natAbs_cast_neg_eq _ hn]
    congr 1
    ring
  · have hfmt : format6 q =
        natToChars ((round6 q).natAbs / 1000000) ++
          '.' :: natToCharsPad6 ((round6 q).natAbs % 1000000) := by
      simp only [format6, if_neg hn, List.nil_append]
    have hA := natToChars_ne_nil ((round6 q).natAbs / 1000000)
    cases hAcs : natToChars ((round6 q).natAbs / 1000000) with
    | nil => exact absurd hAcs hA
    | cons c cs =>
      have hcdigit : (charToDigit c).isSome := by
        apply mem_natToChars_isSome ((round6 q).natAbs / 1000000)
        rw [hAcs]
        exact List.mem_cons_self c cs
      have hcne : c ≠ '-' := isSome_ne_minus c hcdigit
      rw [hfmt, hAcs, List.cons_append, parse6_not_neg_head c _ hcne,
        ← List.cons_append, ← hAcs, key]
      unfold prec6
      rw [natAbs_cast_div_eq _ hn]

/-- The "v x y z" line written for one vertex: `f"v {x:.6f} {y:.6f} {z:.6f}"`. -/
def vertexLine (v : ℚ × ℚ × ℚ) : List Char :=
  'v' :: ' ' :: joinTokens [format6 v.1, format6 v.2.1, format6 v.2.2]

/-- The "f i j k ..." line written for one face:
`f"f {' '.join(map(str, face))}"`. -/
def faceLine (f : List ℕ) : List Char :=
  'f' :: ' ' :: joinTokens (f.map natToChars)

/-- The lines of the document `save_obj` writes (the file split on
newlines): a four-line comment header, a blank line, one line per vertex,
a blank line, one line per face. The file write itself is I/O; this is
the text it produces. -/
def save_obj_lines (g : ProbeOBJGenerator) (probe_name : List Char) :
    List (List Char) :=
  ("# Probe: ".data ++ probe_name) ::
    "# Generated by ProbeOBJGenerator".data ::
    ("# Vertices: ".data ++ natToChars g.vertices.length) ::
    ("# Faces: ".data ++ natToChars g.faces.length) ::
    [] ::
    (g.vertices.map vertexLine ++ [] :: g.faces.map faceLine)

/-- Parse the three coordinate tokens of a vertex line. Modelled from the
spec: the source has no OBJ reader, this is the spec's round-trip parse. -/
def parseVertexTokens (ts : List (List Char)) : Option (ℚ × ℚ × ℚ) :=
  match ts with
  | [a, b, c] =>
    (parse6 a).bind (fun (x : ℚ) => (parse6 b).bind (fun (y : ℚ) =>
      (parse6 c).map (fun (z : ℚ) => (x, y, z))))
  | _ => none

/-- Parse the index tokens of a face line. -/
def parseNats : List (List Char) → Option (List ℕ)
  | [] => some []
  | t :: ts => (parseNat t).bind (fun (n : ℕ) =>
      (parseNats ts).map (fun (l : List ℕ) => n :: l))

/-- Parse an OBJ document: collect "v " lines as vertices and "f " lines
as faces, in order; skip comments, blanks and anything else. Modelled
from the spec: the source has no OBJ reader, this is the spec's
round-trip parse of the emitted text. -/
def parse_obj : List (List Char) → Option (List (ℚ × ℚ × ℚ) × List (List ℕ))
  | [] => some ([], [])
  | line :: rest =>
    match line with
    | 'v' :: ' ' :: body =>
      (parseVertexTokens (splitOnChar ' ' body)).bind (fun v =>
        (parse_obj rest).map (fun r => (v :: r.1, r.2)))
    | 'f' :: ' ' :: body =>
      (parseNats (splitOnChar ' ' body)).bind (fun fc =>
        (parse_obj rest).map (fun r => (r.1, fc :: r.2)))
    | _ => parse_obj rest

theorem parse_obj_blank (rest : List (List Char)) :
    parse_obj ([] :: rest) = parse_obj rest := rfl

theorem parse_obj_hash (cs : List Char) (rest : List (List Char)) :
    parse_obj (('#' :: cs) :: rest) = parse_obj rest := rfl

theorem parse_obj_vline (body : List Char) (rest : List (List Char)) :
    parse_obj (('v' :: ' ' :: body) :: rest) =
      (parseVertexTokens (splitOnChar ' ' body)).bind (fun v =>
        (parse_obj rest).map (fun r => (v :: r.1, r.2))) := rfl

theorem parse_obj_fline (body : List Char) (rest : List (List Char)) :
    parse_obj (('f' :: ' ' :: body) :: rest) =
      (parseNats (splitOnChar ' ' body)).bind (fun fc =>
        (parse_obj rest).map (fun r => (r.1, fc :: r.2))) := rfl

theorem format6_no_space (q : ℚ) : ∀ c ∈ format6 q, c ≠ ' ' := by
  intro c hc
  unfold format6 at hc
  dsimp only at hc
  rcases List.mem_append.1 hc with hc | hc
  · rcases List.mem_append.1 hc with hc | hc
    · by_cases hn : round6 q < 0
      · rw [if_pos hn, List.mem_singleton] at hc
        rw [hc]
        decide
      · rw [if_neg hn] at hc
        exact absurd hc (List.not_mem_nil c)
    · exact isSome_ne_space c (mem_natToChars_isSome _ c hc)
  · rcases List.mem_cons.1 hc with rfl | hc
    · decide
    · exact isSome_ne_space c (mem_natToCharsPad6_isSome _ c hc)

theorem parse_vertex_tokens_format (v : ℚ × ℚ × ℚ) :
    parseVertexTokens (splitOnChar ' '
        (joinTokens [format6 v.1, format6 v.2.1, format6 v.2.2])) =
      some (prec6 v.1, prec6 v.2.1, prec6 v.2.2) := by
  rw [splitOnChar_joinTokens _ (by simp) (by
    intro t ht c hc
    rcases List.mem_cons.1 ht with rfl | ht
    · exact format6_no_space _ c hc
    rcases List.mem_cons.1 ht with rfl | ht
    · exact format6_no_space _ c hc
    rcases List.mem_cons.1 ht with rfl | ht
    · exact format6_no_space _ c hc
    · exact absurd ht (List.not_mem_nil t))]
  unfold parseVertexTokens
  dsimp only
  rw [parse6_format6, parse6_format6, parse6_format6]
  rfl

theorem parseNats_format (f : List ℕ) :
    parseNats (f.map natToChars) = some f := by
  induction f with
  | nil => rfl
  | cons n f ih =>
    rw [List.map_cons]
    show (parseNat (natToChars n)).bind _ = _
    rw [parseNat_natToChars, Option.some_bind, ih, Option.map_some']

theorem parse_obj_faceLines (fs : List (List ℕ)) (h : ∀ f ∈ fs, f ≠ []) :
    parse_obj (fs.map faceLine) = some ([], fs) := by
  induction fs with
  | nil => rfl
  | cons f fs ih =>
    rw [List.map_cons]
    show parse_obj (('f' :: ' ' :: joinTokens (f.map natToChars)) :: _) = _
    rw [parse_obj_fline]
    rw [splitOnChar_joinTokens _ (by
        intro hmap
        exact h f (List.mem_cons_self f fs) (List.map_eq_nil_iff.1 hmap))
      (by
        intro t ht c hc
        obtain ⟨n, _, rfl⟩ := List.mem_map.1 ht
        exact isSome_ne_space c (mem_natToChars_isSome n c hc))]
    rw [parseNats_format, Option.some_bind,
      ih (fun f' hf' => h f' (List.mem_cons_of_mem f hf')), Option.map_some']

theorem parse_obj_body (vs : List (ℚ × ℚ × ℚ)) (fs : List (List ℕ))
    (h : ∀ f ∈ fs, f ≠ []) :
    parse_obj (vs.map vertexLine ++ [] :: fs.map faceLine) =
      some (vs.map (fun v => (prec6 v.1, prec6 v.2.1, prec6 v.2.2)), fs) := by
  induction vs with
  | nil =>
    rw [List.map_nil, List.nil_append, parse_obj_blank,
      parse_obj_faceLines fs h, List.map_nil]
  | cons v vs ih =>
    rw [List.map_cons, List.cons_append]
    show parse_obj (('v' :: ' ' :: joinTokens
      [format6 v.1, format6 v.2.1, format6 v.2.2]) :: _) = _
    rw [parse_obj_vline, parse_vertex_tokens_format, Option.some_bind, ih,
      Option.map_some', List.map_cons]

/-- C8: the serialized text has one "v " line per vertex (three fixed
6-decimal coordinates), a blank separator, and one "f " line per face
(space-separated 1-based indices), in insertion order; parsing it
recovers every vertex coordinate at the serialized 6-decimal precision
(exactly, for any value already representable at that precision — second
conjunct) and the exact face index lists in insertion order. -/
theorem claim_C8 (g : ProbeOBJGenerator) (probe_name : List Char)
    (hfaces : ∀ f ∈ g.faces, f ≠ []) :
    parse_obj (save_obj_lines g probe_name) =
        some (g.vertices.map (fun v => (prec6 v.1, prec6 v.2.1, prec6 v.2.2)),
          g.faces) ∧
      ∀ z : ℤ, prec6 ((z : ℚ) / 1000000) = (z : ℚ) / 1000000 := by
  constructor
  · show parse_obj (('#' :: (" Probe: ".data ++ probe_name)) ::
      ('#' :: " Generated by ProbeOBJGenerator".data) ::
      ('#' :: (" Vertices: ".data ++ natToChars g.vertices.length)) ::
      ('#' :: (" Faces: ".data ++ natToChars g.faces.length)) ::
      [] :: (g.vertices.map vertexLine ++ [] :: g.faces.map faceLine)) = _
    rw [parse_obj_hash, parse_obj_hash, parse_obj_hash, parse_obj_hash,
      parse_obj_blank]
    exact parse_obj_body g.vertices g.faces hfaces
  · intro z
    unfold prec6 round6
    have h1 : (z : ℚ) / 1000000 * 1000000 + 1 / 2 = (z : ℚ) + 1 / 2 := by
      rw [div_mul_cancel₀ _ (by norm_num : (1000000 : ℚ) ≠ 0)]
    rw [h1]
    have h2 : ⌊(z : ℚ) + 1 / 2⌋ = z := by
      rw [add_comm, Int.floor_add_int]
      norm_num
    rw [h2]

/-- Closed witness for C8 at a one-vertex, one-face mesh. -/
theorem claim_C8_witness :
    parse_obj (save_obj_lines ⟨[(0, -30, 10)], [[1, 2]], 1⟩ "probe".data) =
      some ([(0, -30, 10)].map
          (fun v : ℚ × ℚ × ℚ => (prec6 v.1, prec6 v.2.1, prec6 v.2.2)),
        [[1, 2]]) :=
  (claim_C8 ⟨[(0, -30, 10)], [[1, 2]], 1⟩ "probe".data (by decide)).1
